import Mathlib

/-!
Shallow embedding of the steganography engine in `src/stego_cli.cpp`.

Modelling conventions:

* File contents (byte strings) are `List Nat`, each entry a byte value
  0–255; paths (`std::string`) are likewise byte lists.
* `size_t` / `uint32_t` / `uint16_t` arithmetic is modelled over `Nat`
  with explicit `% 2 ^ 32` (resp. `2 ^ 16`) wherever the C++ performs a
  narrowing conversion or wrapping arithmetic.
* Fallible operations return `Except StegoError _`; the exception
  messages of the C++ (which interpolate `Utils::formatBytes` output)
  are abstracted into one constructor per `throw` site, each documented
  with the exact C++ message.
* File-system access (`validateFileAccess`, `readFile`, `getFileSize`)
  is modelled by passing the files' byte contents directly; a file's
  size is its list length.

Layout of `StegoHeader`: the struct

    struct StegoHeader { uint32_t magic; uint16_t version;
      uint32_t hiddenFileSize; uint16_t filenameLength;
      char filename[256]; uint32_t checksum; };

carries no packing directive, so under the standard Itanium C++ ABI
(x86-64 / AArch64, little-endian) its layout is: `magic` at offset 0,
`version` at 4, two padding bytes at 6, `hiddenFileSize` at 8,
`filenameLength` at 12, `filename` at 14, two padding bytes at 270,
`checksum` at 272, and `sizeof(StegoHeader) = 276`.  Serialization is a
raw `memcpy` of the struct, so a serialized header occupies 276 bytes;
the two 2-byte padding holes are modelled as zero bytes (their contents
are unspecified in C++ and are never read back by deserialization,
which parses fields positionally).

Floating point: `FileValidator::validateAndCalculateMaxSize` computes
`static_cast<size_t>(hostSize * 0.85)` in `double` precision.  This is
modelled exactly over `Nat`: the `double` literal `0.85` is the
round-to-nearest value `7656119366529843 / 2 ^ 53` (since
`0.85 * 2 ^ 53 = 7656119366529843.2` rounds down), the conversion
`(double)hostSize` and the product are rounded to 53 significant bits
with round-to-nearest, ties-to-even (`roundNE`), and the cast truncates
the (positive) result toward zero.
-/

set_option maxRecDepth 40000

deriving instance DecidableEq for Except

namespace Stego

/-! ### Configuration constants (`namespace Config`) -/

def MAGIC_SIGNATURE : Nat := 0x5354454E

def VERSION : Nat := 0x0001

def MAX_FILENAME_LENGTH : Nat := 256

def MIN_HOST_SIZE : Nat := 10240

/-- `sizeof(StegoHeader)` = 276 under the standard ABI (see module
docstring): 272 bytes of fields plus 4 bytes of alignment padding. -/
def headerSize : Nat := 276

/-- The 53-bit significand of the `double` literal `0.85`, i.e.
`0.85` as a `double` is exactly `M085 / 2 ^ 53`. -/
def M085 : Nat := 7656119366529843

/-! ### Errors

One constructor per `throw` site of the engine; the doc comments give
the exact C++ message. -/

/-- Exception sites of the engine.  `sizeMinHost`, `sizeNoCapacity`,
`sizeExceeds` are thrown as `FileSizeException`; the `format*`
constructors as `InvalidFormatException`. -/
inductive StegoError where
  /-- "Host file too small. Minimum size: 10.00 KB" -/
  | sizeMinHost : StegoError
  /-- "Host file too small to hide any data" -/
  | sizeNoCapacity : StegoError
  /-- "The file to hide exceeds the allowable size. ..." -/
  | sizeExceeds : StegoError
  /-- "File too small to contain hidden data" -/
  | formatTooSmall : StegoError
  /-- "No hidden data found in file" -/
  | formatNoHidden : StegoError
  /-- "Invalid or corrupted header" -/
  | formatCorruptHeader : StegoError
  /-- "Corrupted file: size mismatch" -/
  | formatSizeMismatch : StegoError
  /-- "Invalid header size" (thrown by `deserializeHeader`) -/
  | formatBadHeaderSize : StegoError
deriving DecidableEq, Repr

/-- The three exception classes of §7 of the spec. -/
inductive ErrKind where
  | AccessError : ErrKind
  | SizeError : ErrKind
  | FormatError : ErrKind
deriving DecidableEq, Repr

/-- Which C++ exception class each throw site uses. -/
def StegoError.kind : StegoError → ErrKind
  | .sizeMinHost => .SizeError
  | .sizeNoCapacity => .SizeError
  | .sizeExceeds => .SizeError
  | .formatTooSmall => .FormatError
  | .formatNoHidden => .FormatError
  | .formatCorruptHeader => .FormatError
  | .formatSizeMismatch => .FormatError
  | .formatBadHeaderSize => .FormatError

/-! ### IEEE-754 `double` model for the capacity computation -/

/-- Round the rational `a / 2 ^ k` to the nearest integer,
ties-to-even (the IEEE-754 default rounding). -/
def roundNE (a k : Nat) : Nat :=
  let q := a / 2 ^ k
  let r := a % 2 ^ k
  if 2 * r < 2 ^ k then q
  else if 2 ^ k < 2 * r then q + 1
  else if q % 2 = 0 then q else q + 1

/-- Fuel-driven base-2 logarithm (the fuel makes the recursion
structural, so that the kernel can evaluate it; with `fuel ≥ n` it
computes `Nat.log2 n`, see `log2fuel_eq_log2`). -/
def log2fuel : Nat → Nat → Nat
  | 0, _ => 0
  | fuel + 1, n => if n < 2 then 0 else log2fuel fuel (n / 2) + 1

/-- Kernel-computable `Nat.log2` (see `log2c_eq_log2`). -/
def log2c (n : Nat) : Nat := log2fuel n n

/-- The exact value of `(double)h` for a `size_t` value `h`: integers
below `2 ^ 53` convert exactly; larger ones are rounded to 53
significant bits (round-to-nearest, ties-to-even). -/
def toDouble (h : Nat) : Nat :=
  if h < 2 ^ 53 then h
  else
    let s := log2c h - 52
    2 ^ s * roundNE h s

/-- `2 ^ 53` times the exact value of the `double` product
`(double)h * 0.85`: the exact rational `toDouble h * M085 / 2 ^ 53` is
rounded to 53 significant bits (round-to-nearest, ties-to-even). -/
def mulDouble085 (h : Nat) : Nat :=
  let a := toDouble h * M085
  let s := log2c a - 52
  2 ^ s * roundNE a s

/-- `static_cast<size_t>(hostSize * Config::MAX_HIDDEN_SIZE_RATIO)`:
the double product truncated toward zero. -/
def castSizeTMul085 (h : Nat) : Nat :=
  mulDouble085 h / 2 ^ 53

/-! ### `FileValidator::validateAndCalculateMaxSize` -/

/-- `FileValidator::validateAndCalculateMaxSize(hiddenSize, hostSize)`. -/
def validateAndCalculateMaxSize (hiddenSize hostSize : Nat) :
    Except StegoError Nat :=
  if hostSize < MIN_HOST_SIZE then .error .sizeMinHost
  else
    let maxHiddenSize := castSizeTMul085 hostSize
    if maxHiddenSize < headerSize then .error .sizeNoCapacity
    else if hiddenSize > maxHiddenSize - headerSize then .error .sizeExceeds
    else .ok (maxHiddenSize - headerSize)

/-! ### Path utilities (`namespace Utils`) -/

/-- Index of the last element of `l` satisfying `p`
(`std::string::find_last_of`; `none` plays the role of `npos`). -/
def findLast (p : Nat → Bool) (l : List Nat) : Option Nat :=
  l.enum.foldl (fun acc ib => if p ib.2 then some ib.1 else acc) none

/-- `Utils::extractFilename`: everything after the last `'/'` (47) or
`'\\'` (92), or the whole path when neither occurs. -/
def extractFilename (fullPath : List Nat) : List Nat :=
  match findLast (fun b => b == 47 || b == 92) fullPath with
  | none => fullPath
  | some pos => fullPath.drop (pos + 1)

/-- `::tolower` in the C locale on a byte: ASCII `'A'`–`'Z'` map down
by 32, everything else is unchanged. -/
def toLowerByte (b : Nat) : Nat :=
  if 65 ≤ b ∧ b ≤ 90 then b + 32 else b

/-- `Utils::getExtension`: the (lowercased) substring from the last
`'.'` (46) on, or empty when there is no dot. -/
def getExtension (filename : List Nat) : List Nat :=
  match findLast (fun b => b == 46) filename with
  | none => []
  | some pos => (filename.drop pos).map toLowerByte

/-- The byte string `"extracted_"`. -/
def extractedLit : List Nat := [101, 120, 116, 114, 97, 99, 116, 101, 100, 95]

/-- The `hasExtension` test inside `Utils::generateOutputFilename`:
there is a dot, and it lies after any slash/backslash. -/
def hasExtensionB (p : List Nat) : Bool :=
  match findLast (fun b => b == 46) p,
        findLast (fun b => b == 47 || b == 92) p with
  | some d, some s => decide (s < d)
  | some _, none => true
  | none, _ => false

/-- `Utils::generateOutputFilename(userProvidedPath, originalFilename)`. -/
def generateOutputFilename (userProvidedPath originalFilename : List Nat) :
    List Nat :=
  if userProvidedPath.isEmpty then extractedLit ++ originalFilename
  else if hasExtensionB userProvidedPath then userProvidedPath
  else userProvidedPath ++ getExtension originalFilename

/-- Reading a `char[256]` field as a C string (`operator<<`, or the
`std::string(const char*)` conversion when the header's filename is
passed on to `generateOutputFilename`): the bytes before the first
NUL. -/
def cString (l : List Nat) : List Nat :=
  l.takeWhile (fun b => decide (b ≠ 0))

/-! ### Header record and checksum -/

/-- The in-memory `StegoHeader` record.  `filename` models the
`char filename[256]` array, so in every header that actually arises in
the program it has length 256 (bytes after the name are NUL). -/
structure StegoHeader where
  magic : Nat
  version : Nat
  hiddenFileSize : Nat
  filenameLength : Nat
  filename : List Nat
  checksum : Nat
deriving DecidableEq, Repr

/-- `StegoHeader::calculateChecksum`: a `uint32_t` additive sum of
`magic`, `version`, `hiddenFileSize`, `filenameLength` and the first
`min filenameLength 256` filename bytes (the loop runs while
`i < filenameLength && i < MAX_FILENAME_LENGTH`); `uint32_t` wrapping
is the final `% 2 ^ 32`. -/
def calculateChecksum (h : StegoHeader) : Nat :=
  (h.magic + h.version + h.hiddenFileSize + h.filenameLength +
    ((h.filename.take (min h.filenameLength MAX_FILENAME_LENGTH)).foldl
      (· + ·) 0)) % 2 ^ 32

/-- Modelled from the spec's words (claim C5 / §3 of the spec): the
checksum invariant `magic + version + payloadSize + filenameLength +
sum(filename[0..filenameLength))`, each byte an unsigned 0–255 value,
modulo the 32-bit checksum width.  To be compared against the source's
`calculateChecksum`. -/
def specChecksum (h : StegoHeader) : Nat :=
  (h.magic + h.version + h.hiddenFileSize + h.filenameLength +
    ((h.filename.take h.filenameLength).foldl (· + ·) 0)) % 2 ^ 32

/-- `StegoHeader::validate`. -/
def validateB (h : StegoHeader) : Bool :=
  h.magic == MAGIC_SIGNATURE && h.checksum == calculateChecksum h

/-- `UniversalSteganography::createHeader(hiddenFilename, hiddenSize)`:
default-construct (magic/version constants, zeroed filename), set
`hiddenFileSize = (uint32_t)hiddenSize`, truncate the path's final
component to at most 255 bytes, and store the recomputed checksum. -/
def createHeader (hiddenFilename : List Nat) (hiddenSize : Nat) :
    StegoHeader :=
  let filename := extractFilename hiddenFilename
  let len := min filename.length (MAX_FILENAME_LENGTH - 1)
  let h0 : StegoHeader :=
    { magic := MAGIC_SIGNATURE
      version := VERSION
      hiddenFileSize := hiddenSize % 2 ^ 32
      filenameLength := len
      filename := filename.take len ++ List.replicate (256 - len) 0
      checksum := 0 }
  { h0 with checksum := calculateChecksum h0 }

/-! ### Serialization (raw `memcpy` of the struct, see module docstring) -/

/-- The `width` little-endian bytes of `x`. -/
def toLE (width x : Nat) : List Nat :=
  (List.range width).map fun i => x / 256 ^ i % 256

/-- Read a little-endian byte sequence back as a number. -/
def fromLE (bs : List Nat) : Nat :=
  bs.foldr (fun b acc => b + 256 * acc) 0

/-- The 256 bytes of the `char filename[256]` array backing `h`
(pad/trim so the field is always exactly 256 bytes, as in the
struct). -/
def filenameField (h : StegoHeader) : List Nat :=
  h.filename.take 256 ++ List.replicate (256 - h.filename.length) 0

/-- `UniversalSteganography::serializeHeader`: `memcpy` of the struct,
i.e. the fields at their ABI offsets with the two 2-byte padding holes
(offsets 6–7 and 270–271, modelled as zeros). -/
def serializeHeader (h : StegoHeader) : List Nat :=
  toLE 4 h.magic ++ toLE 2 h.version ++ [0, 0] ++
    toLE 4 h.hiddenFileSize ++ toLE 2 h.filenameLength ++
    filenameField h ++ [0, 0] ++ toLE 4 h.checksum

/-- `UniversalSteganography::deserializeHeader`: fails on fewer than
`sizeof(StegoHeader)` bytes, otherwise reads the fields positionally
at their ABI offsets (padding bytes are ignored). -/
def deserializeHeader (buffer : List Nat) : Except StegoError StegoHeader :=
  if buffer.length < headerSize then .error .formatBadHeaderSize
  else .ok
    { magic := fromLE (buffer.take 4)
      version := fromLE ((buffer.drop 4).take 2)
      hiddenFileSize := fromLE ((buffer.drop 8).take 4)
      filenameLength := fromLE ((buffer.drop 12).take 2)
      filename := (buffer.drop 14).take 256
      checksum := fromLE ((buffer.drop 272).take 4) }

/-- Well-formedness of a header value: each numeric field fits its
C++ integer type and the filename array holds exactly 256 bytes.
Every header the program builds or deserializes satisfies this. -/
def HeaderWF (h : StegoHeader) : Prop :=
  h.magic < 2 ^ 32 ∧ h.version < 2 ^ 16 ∧ h.hiddenFileSize < 2 ^ 32 ∧
    h.filenameLength < 2 ^ 16 ∧ h.checksum < 2 ^ 32 ∧
    h.filename.length = 256

/-! ### The backward scan and the two pipelines -/

/-- The 276-byte window of `data` starting at offset `i`
(`vector<unsigned char>(data.begin()+i, data.begin()+i+sizeof(StegoHeader))`). -/
def window (data : List Nat) (i : Nat) : List Nat :=
  (data.drop i).take headerSize

/-- The loop-body test of the backward scan at offset `i`:
`header.magic == Config::MAGIC_SIGNATURE && header.validate()`.
(In `extractFile` the window always holds exactly 276 bytes, so the
`deserializeHeader` failure branch is unreachable there.) -/
def probeValid (data : List Nat) (i : Nat) : Bool :=
  match deserializeHeader (window data i) with
  | .ok h => h.magic == MAGIC_SIGNATURE && validateB h
  | .error _ => false

/-- The backward scan `for (size_t i = start; i > 0; i--)`:
probe `i, i-1, ..., 1` (index 0 is never probed) and stop at the first
valid window. -/
def scanFrom (data : List Nat) : Nat → Option Nat
  | 0 => none
  | i + 1 => if probeValid data (i + 1) then some (i + 1) else scanFrom data i

/-- `UniversalSteganography::hideFile`, pure core.  Arguments: the
three constructor paths and the two input files' contents.  Returns the
final output path together with the composite output bytes.
(`Utils::getFileSize` of a file is its content's length; console
reporting and the actual disk write are outside the model.) -/
def hideFilePure (hiddenFilePath hostFilePath outputFilePath : List Nat)
    (hiddenData hostData : List Nat) :
    Except StegoError (List Nat × List Nat) := do
  let _ ← validateAndCalculateMaxSize hiddenData.length hostData.length
  let header := createHeader hiddenFilePath hiddenData.length
  let headerData := serializeHeader header
  let output := hostData ++ headerData ++ hiddenData
  let finalOutputPath :=
    generateOutputFilename outputFilePath (extractFilename hostFilePath)
  pure (finalOutputPath, output)

/-- `UniversalSteganography::extractFile`, pure core.  Arguments: the
output path and the stego file's contents.  Returns the extracted
file's name, the recovered payload bytes, and the recovered header. -/
def extractFilePure (outputFilePath : List Nat) (data : List Nat) :
    Except StegoError (List Nat × List Nat × StegoHeader) :=
  if data.length < headerSize then .error .formatTooSmall
  else
    match scanFrom data (data.length - headerSize) with
    | none => .error .formatNoHidden
    | some headerOffset =>
      match deserializeHeader (window data headerOffset) with
      | .error e => .error e
      | .ok header =>
        if !validateB header then .error .formatCorruptHeader
        else
          let hiddenDataOffset := headerOffset + headerSize
          if data.length < hiddenDataOffset + header.hiddenFileSize then
            .error .formatSizeMismatch
          else
            .ok (generateOutputFilename outputFilePath (cString header.filename),
                 (data.drop hiddenDataOffset).take header.hiddenFileSize,
                 header)

/-! ## Arithmetic lemmas about the `double` model -/

/-- With enough fuel, `log2fuel` computes `Nat.log2`. -/
theorem log2fuel_eq_log2 : ∀ fuel n, n ≤ fuel → log2fuel fuel n = Nat.log2 n := by
  intro fuel
  induction fuel with
  | zero =>
    intro n hn
    have : n = 0 := by omega
    subst this
    simp [log2fuel, Nat.log2]
  | succ fuel ih =>
    intro n hn
    rw [log2fuel]
    split_ifs with h2
    · rw [Nat.log2]
      simp [show ¬2 ≤ n by omega]
    · rw [ih (n / 2) (by omega)]
      conv_rhs => rw [Nat.log2]
      simp [show 2 ≤ n by omega]

/-- `log2c` is `Nat.log2`. -/
theorem log2c_eq_log2 (n : Nat) : log2c n = Nat.log2 n :=
  log2fuel_eq_log2 n n le_rfl

/-- Rounding to the nearest multiple of `2 ^ k` moves a number by at
most `2 ^ k / 2` in either direction. -/
theorem roundNE_bounds (a k : Nat) :
    2 ^ k * roundNE a k ≤ a + 2 ^ k / 2 ∧
      a ≤ 2 ^ k * roundNE a k + 2 ^ k / 2 := by
  have hP : 0 < 2 ^ k := Nat.pos_pow_of_pos k (by norm_num)
  have hdm := Nat.div_add_mod a (2 ^ k)
  have hr : a % 2 ^ k < 2 ^ k := Nat.mod_lt _ hP
  unfold roundNE
  simp only
  generalize hX : 2 ^ k * (a / 2 ^ k) = X at hdm
  split_ifs with h1 h2 h3
  · constructor
    · omega
    · omega
  · have hX1 : 2 ^ k * (a / 2 ^ k + 1) = X + 2 ^ k := by
      rw [Nat.mul_add, hX, Nat.mul_one]
    rw [hX1]
    omega
  · constructor
    · omega
    · omega
  · have hX1 : 2 ^ k * (a / 2 ^ k + 1) = X + 2 ^ k := by
      rw [Nat.mul_add, hX, Nat.mul_one]
    rw [hX1]
    omega

/-- Rounding an integer to `double` at most doubles ... precisely:
`toDouble h` is at least `h / 2` (a very crude bound that suffices for
the capacity lower bound). -/
theorem half_le_toDouble (h : Nat) : h ≤ 2 * toDouble h := by
  by_cases hlt : h < 2 ^ 53
  · unfold toDouble
    rw [if_pos hlt]
    omega
  · push_neg at hlt
    have h0 : h ≠ 0 := by
      have : (0 : Nat) < 2 ^ 53 := by norm_num
      omega
    have hA : 2 ^ log2c h ≤ h := by
      rw [log2c_eq_log2]
      exact Nat.log2_self_le h0
    have h52 : 52 ≤ log2c h := by
      rw [log2c_eq_log2, Nat.le_log2 h0]
      calc (2 : Nat) ^ 52 ≤ 2 ^ 53 := by norm_num
      _ ≤ h := hlt
    have htd : toDouble h = 2 ^ (log2c h - 52) * roundNE h (log2c h - 52) := by
      unfold toDouble
      rw [if_neg (by omega)]
    set s := log2c h - 52 with hs
    have hbs : log2c h = s + 52 := by omega
    rw [hbs] at hA
    have hP : 2 ^ s * 2 ^ 52 ≤ h := by rw [← pow_add]; exact hA
    obtain ⟨-, rb2⟩ := roundNE_bounds h s
    rw [htd]
    generalize hX : 2 ^ s * roundNE h s = X at rb2 ⊢
    have h252 : (2 : Nat) ^ 52 = 4503599627370496 := by norm_num
    rw [h252] at hP
    omega

/-- Any host of at least the minimum size 10240 yields a truncated
double product of at least 2175 — in particular at least `headerSize`,
which is why the "Host file too small to hide any data" branch is
unreachable once the minimum-size check has passed. -/
theorem le_castSizeTMul085 {h : Nat} (hh : MIN_HOST_SIZE ≤ h) :
    2175 ≤ castSizeTMul085 h := by
  have hd : h ≤ 2 * toDouble h := half_le_toDouble h
  have hh' : (10240 : Nat) ≤ h := hh
  have hd5120 : 5120 ≤ toDouble h := by omega
  have hcast : castSizeTMul085 h =
      2 ^ (log2c (toDouble h * M085) - 52) *
        roundNE (toDouble h * M085) (log2c (toDouble h * M085) - 52)
        / 2 ^ 53 := rfl
  rw [hcast]
  have ha : 5120 * M085 ≤ toDouble h * M085 := Nat.mul_le_mul_right _ hd5120
  set a := toDouble h * M085 with haa
  have ha0 : a ≠ 0 := by
    have : (0 : Nat) < 5120 * M085 := by norm_num [M085]
    omega
  have hA : 2 ^ log2c a ≤ a := by
    rw [log2c_eq_log2]
    exact Nat.log2_self_le ha0
  have h52 : 52 ≤ log2c a := by
    rw [log2c_eq_log2, Nat.le_log2 ha0]
    calc (2 : Nat) ^ 52 ≤ 5120 * M085 := by norm_num [M085]
    _ ≤ a := ha
  set s := log2c a - 52 with hs
  have hbs : log2c a = s + 52 := by omega
  rw [hbs] at hA
  have hP : 2 ^ s * 2 ^ 52 ≤ a := by rw [← pow_add]; exact hA
  obtain ⟨-, rb2⟩ := roundNE_bounds a s
  generalize hX : 2 ^ s * roundNE a s = X at rb2 ⊢
  have h252 : (2 : Nat) ^ 52 = 4503599627370496 := by norm_num
  rw [h252] at hP
  have haX : a / 2 ≤ X := by omega
  have h1 : a / 2 / 2 ^ 53 ≤ X / 2 ^ 53 := Nat.div_le_div_right haX
  have h2 : a / 2 / 2 ^ 53 = a / 2 ^ 54 := by
    rw [Nat.div_div_eq_div_mul]
    norm_num
  have h3 : 5120 * M085 / 2 ^ 54 ≤ a / 2 ^ 54 := Nat.div_le_div_right ha
  have h4 : (5120 * M085 / 2 ^ 54 : Nat) = 2175 := by norm_num [M085]
  omega

/-- For host sizes up to `2 ^ 40` bytes (1 TiB) the double-precision
computation `static_cast<size_t>(hostSize * 0.85)` agrees with the
exact `⌊hostSize * 0.85⌋ = 17 * hostSize / 20`.  (It does not for some
larger sizes, e.g. `hostSize = 6000000000000007`.) -/
theorem castSizeTMul085_eq_floor {h : Nat} (hh : h ≤ 2 ^ 40) :
    castSizeTMul085 h = 17 * h / 20 := by
  rcases Nat.eq_zero_or_pos h with h0 | hpos
  · subst h0; decide
  have htd : toDouble h = h := by
    unfold toDouble
    rw [if_pos (lt_of_le_of_lt hh (by norm_num))]
  have hgoal : castSizeTMul085 h =
      2 ^ (log2c (h * M085) - 52) * roundNE (h * M085) (log2c (h * M085) - 52)
        / 2 ^ 53 := by
    simp only [castSizeTMul085, mulDouble085, htd]
  rw [hgoal]
  have ha0 : h * M085 ≠ 0 := Nat.mul_ne_zero (by omega) (by norm_num [M085])
  have hA : 2 ^ log2c (h * M085) ≤ h * M085 := by
    rw [log2c_eq_log2]
    exact Nat.log2_self_le ha0
  have hB : h * M085 < 2 ^ (log2c (h * M085) + 1) := by
    rw [log2c_eq_log2]
    exact Nat.lt_log2_self
  have h52 : 52 ≤ log2c (h * M085) := by
    rw [log2c_eq_log2, Nat.le_log2 ha0]
    calc (2 : Nat) ^ 52 ≤ M085 := by norm_num [M085]
    _ ≤ h * M085 := Nat.le_mul_of_pos_left _ hpos
  set a := h * M085 with ha
  set s := log2c a - 52 with hs
  have hbs : log2c a = s + 52 := by omega
  rw [hbs] at hA hB
  have haU : a < 2 ^ 93 := by
    calc a = h * M085 := ha
    _ ≤ 2 ^ 40 * M085 := Nat.mul_le_mul_right _ hh
    _ < 2 ^ 93 := by norm_num [M085]
  have hs40 : s ≤ 40 := by
    by_contra hcon
    have h1 : (2 : Nat) ^ 93 ≤ 2 ^ (s + 52) := Nat.pow_le_pow_right (by norm_num) (by omega)
    omega
  have hP52 : 2 ^ s * 2 ^ 52 ≤ a := by rw [← pow_add]; exact hA
  have hP53 : a < 2 ^ s * 2 ^ 53 := by
    rw [← pow_add]
    exact hB
  have K1 : 10 * 2 ^ s ≤ 17 * h := by
    have c2 : 10 * a ≤ 17 * h * 2 ^ 52 := by
      calc 10 * a = h * (10 * M085) := by rw [ha]; ring
      _ ≤ h * (17 * 2 ^ 52) := Nat.mul_le_mul_left _ (by norm_num [M085])
      _ = 17 * h * 2 ^ 52 := by ring
    have c3 : 10 * 2 ^ s * 2 ^ 52 ≤ 17 * h * 2 ^ 52 := by
      calc 10 * 2 ^ s * 2 ^ 52 = 10 * (2 ^ s * 2 ^ 52) := by ring
      _ ≤ 10 * a := Nat.mul_le_mul_left _ hP52
      _ ≤ 17 * h * 2 ^ 52 := c2
    exact Nat.le_of_mul_le_mul_right c3 (by norm_num)
  have K2 : 4 * h < 10 * 2 ^ s := by
    have c2 : 4 * h * 2 ^ 53 ≤ 10 * a := by
      calc 4 * h * 2 ^ 53 = h * (4 * 2 ^ 53) := by ring
      _ ≤ h * (10 * M085) := Nat.mul_le_mul_left _ (by norm_num [M085])
      _ = 10 * a := by rw [ha]; ring
    have c3 : 10 * a < 10 * 2 ^ s * 2 ^ 53 := by
      calc 10 * a < 10 * (2 ^ s * 2 ^ 53) :=
            mul_lt_mul_of_pos_left hP53 (by norm_num)
      _ = 10 * 2 ^ s * 2 ^ 53 := by ring
    have c4 : 4 * h * 2 ^ 53 < 10 * 2 ^ s * 2 ^ 53 := lt_of_le_of_lt c2 c3
    exact Nat.lt_of_mul_lt_mul_right c4
  have hE : 20 * a + 4 * h = 17 * h * 2 ^ 53 := by
    calc 20 * a + 4 * h = h * (20 * M085 + 4) := by rw [ha]; ring
    _ = h * (17 * 2 ^ 53) := by norm_num [M085]
    _ = 17 * h * 2 ^ 53 := by ring
  obtain ⟨rb1, rb2⟩ := roundNE_bounds a s
  set R := 2 ^ s * roundNE a s with hR
  have hmul : 2 ^ s * (17 * h / 20 * 2 ^ (53 - s)) = 17 * h / 20 * 2 ^ 53 := by
    rw [mul_comm (2 ^ s), mul_assoc, ← pow_add]
    congr 2
    omega
  have NL : 17 * h / 20 * 2 ^ 53 ≤ R := by
    by_contra hcon
    push_neg at hcon
    rw [← hmul] at hcon
    have hρ : roundNE a s < 17 * h / 20 * 2 ^ (53 - s) :=
      Nat.lt_of_mul_lt_mul_left hcon
    have h2 : R + 2 ^ s ≤ 17 * h / 20 * 2 ^ 53 := by
      rw [← hmul, hR]
      calc 2 ^ s * roundNE a s + 2 ^ s = 2 ^ s * (roundNE a s + 1) := by ring
      _ ≤ 2 ^ s * (17 * h / 20 * 2 ^ (53 - s)) :=
          Nat.mul_le_mul_left _ hρ
    have hp53 : (2 : Nat) ^ 53 = 9007199254740992 := by norm_num
    rw [hp53] at h2 hE
    omega
  have NU : R < (17 * h / 20 + 1) * 2 ^ 53 := by
    by_contra hcon
    push_neg at hcon
    have hp53 : (2 : Nat) ^ 53 = 9007199254740992 := by norm_num
    have hp40 : (2 : Nat) ^ 40 = 1099511627776 := by norm_num
    rw [hp53] at hcon hE
    rw [hp40] at hh
    omega
  exact Nat.div_eq_of_lt_le NL NU

/-! ## Header codec lemmas -/

theorem toLE_length (w x : Nat) : (toLE w x).length = w := by
  simp [toLE]

theorem fromLE_toLE_2 {x : Nat} (hx : x < 2 ^ 16) : fromLE (toLE 2 x) = x := by
  have h2 : toLE 2 x = [x / 1 % 256, x / 256 % 256] := by
    norm_num [toLE, List.range_succ]
  rw [h2]
  simp only [fromLE, List.foldr]
  omega

theorem fromLE_toLE_4 {x : Nat} (hx : x < 2 ^ 32) : fromLE (toLE 4 x) = x := by
  have h4 : toLE 4 x =
      [x / 1 % 256, x / 256 % 256, x / 65536 % 256, x / 16777216 % 256] := by
    norm_num [toLE, List.range_succ]
  rw [h4]
  simp only [fromLE, List.foldr]
  omega

theorem filenameField_length (h : StegoHeader) :
    (filenameField h).length = 256 := by
  simp [filenameField]
  omega

theorem filenameField_of_wf {h : StegoHeader} (hwf : h.filename.length = 256) :
    filenameField h = h.filename := by
  unfold filenameField
  rw [hwf]
  simp [List.take_of_length_le (le_of_eq hwf)]

theorem serializeHeader_length (h : StegoHeader) :
    (serializeHeader h).length = headerSize := by
  simp [serializeHeader, headerSize, toLE_length, filenameField_length]

/-- Dropping past a prefix of known length. -/
theorem drop_append_ge {α : Type} {l₁ l₂ : List α} {n : Nat}
    (h : l₁.length ≤ n) :
    (l₁ ++ l₂).drop n = l₂.drop (n - l₁.length) := by
  have he : n = l₁.length + (n - l₁.length) := by omega
  rw [he, List.drop_append]
  congr 1
  omega

/-- Deserializing a serialized well-formed header (followed by
arbitrary extra bytes) recovers the header exactly. -/
theorem deserialize_serialize (h : StegoHeader) (hwf : HeaderWF h)
    (rest : List Nat) :
    deserializeHeader (serializeHeader h ++ rest) = .ok h := by
  obtain ⟨hm, hv, hz, hf, hc, hn⟩ := hwf
  obtain ⟨m, v, sz, fl, fn, ck⟩ := h
  simp only at hm hv hz hf hc hn
  have hlen : (serializeHeader ⟨m, v, sz, fl, fn, ck⟩ ++ rest).length =
      276 + rest.length := by
    rw [List.length_append, serializeHeader_length]
    rfl
  unfold deserializeHeader
  rw [if_neg (by rw [hlen]; unfold headerSize; omega)]
  unfold serializeHeader
  rw [filenameField_of_wf hn]
  simp only [List.append_assoc]
  have l4m : (toLE 4 m).length = 4 := toLE_length 4 _
  have l2v : (toLE 2 v).length = 2 := toLE_length 2 _
  have l4s : (toLE 4 sz).length = 4 := toLE_length 4 _
  have l2f : (toLE 2 fl).length = 2 := toLE_length 2 _
  have lp : ([0, 0] : List Nat).length = 2 := rfl
  set buf := toLE 4 m ++ (toLE 2 v ++ ([0, 0] ++ (toLE 4 sz ++ (toLE 2 fl ++
    (fn ++ ([0, 0] ++ (toLE 4 ck ++ rest))))))) with hbuf
  have e0 : buf.take 4 = toLE 4 m := List.take_left' l4m
  have e4 : buf.drop 4 = toLE 2 v ++ ([0, 0] ++ (toLE 4 sz ++ (toLE 2 fl ++
      (fn ++ ([0, 0] ++ (toLE 4 ck ++ rest)))))) := List.drop_left' l4m
  have e4t : (buf.drop 4).take 2 = toLE 2 v := by
    rw [e4]
    exact List.take_left' l2v
  have e8 : buf.drop 8 = toLE 4 sz ++ (toLE 2 fl ++
      (fn ++ ([0, 0] ++ (toLE 4 ck ++ rest)))) := by
    rw [hbuf, drop_append_ge (by omega), l4m,
      drop_append_ge (by omega), l2v,
      drop_append_ge (by omega), lp]
    norm_num
  have e8t : (buf.drop 8).take 4 = toLE 4 sz := by
    rw [e8]
    exact List.take_left' l4s
  have e12 : buf.drop 12 = toLE 2 fl ++ (fn ++ ([0, 0] ++
      (toLE 4 ck ++ rest))) := by
    rw [hbuf, drop_append_ge (by omega), l4m,
      drop_append_ge (by omega), l2v,
      drop_append_ge (by omega), lp,
      drop_append_ge (by omega), l4s]
    norm_num
  have e12t : (buf.drop 12).take 2 = toLE 2 fl := by
    rw [e12]
    exact List.take_left' l2f
  have e14 : buf.drop 14 = fn ++ ([0, 0] ++ (toLE 4 ck ++ rest)) := by
    rw [hbuf, drop_append_ge (by omega), l4m,
      drop_append_ge (by omega), l2v,
      drop_append_ge (by omega), lp,
      drop_append_ge (by omega), l4s,
      drop_append_ge (by omega), l2f]
    norm_num
  have e14t : (buf.drop 14).take 256 = fn := by
    rw [e14]
    exact List.take_left' hn
  have e272 : buf.drop 272 = toLE 4 ck ++ rest := by
    rw [hbuf, drop_append_ge (by omega), l4m,
      drop_append_ge (by omega), l2v,
      drop_append_ge (by omega), lp,
      drop_append_ge (by omega), l4s,
      drop_append_ge (by omega), l2f,
      drop_append_ge (by omega), hn,
      drop_append_ge (by omega), lp]
    norm_num
  have e272t : (buf.drop 272).take 4 = toLE 4 ck := by
    rw [e272]
    exact List.take_left' (toLE_length 4 _)
  rw [e0, e4t, e8t, e12t, e14t, e272t,
    fromLE_toLE_4 hm, fromLE_toLE_2 hv, fromLE_toLE_4 hz,
    fromLE_toLE_2 hf, fromLE_toLE_4 hc]

/-! ## `createHeader` and checksum lemmas -/

theorem createHeader_magic (p : List Nat) (n : Nat) :
    (createHeader p n).magic = MAGIC_SIGNATURE := rfl

theorem createHeader_version (p : List Nat) (n : Nat) :
    (createHeader p n).version = VERSION := rfl

theorem createHeader_hiddenFileSize (p : List Nat) (n : Nat) :
    (createHeader p n).hiddenFileSize = n % 2 ^ 32 := rfl

theorem createHeader_filenameLength (p : List Nat) (n : Nat) :
    (createHeader p n).filenameLength = min (extractFilename p).length 255 :=
  rfl

theorem createHeader_filename_length (p : List Nat) (n : Nat) :
    (createHeader p n).filename.length = 256 := by
  unfold createHeader
  simp only [List.length_append, List.length_take, List.length_replicate,
    MAX_FILENAME_LENGTH]
  omega

theorem createHeader_wf (p : List Nat) (n : Nat) :
    HeaderWF (createHeader p n) := by
  refine ⟨?_, ?_, ?_, ?_, ?_, createHeader_filename_length p n⟩
  · rw [createHeader_magic]
    norm_num [MAGIC_SIGNATURE]
  · rw [createHeader_version]
    norm_num [VERSION]
  · rw [createHeader_hiddenFileSize]
    have : (0 : Nat) < 2 ^ 32 := by norm_num
    omega
  · rw [createHeader_filenameLength]
    have : min (extractFilename p).length 255 ≤ 255 := min_le_right _ _
    have : (255 : Nat) < 2 ^ 16 := by norm_num
    omega
  · show calculateChecksum _ < 2 ^ 32
    unfold calculateChecksum
    have : (0 : Nat) < 2 ^ 32 := by norm_num
    omega

/-- The checksum as the C++ loop computes it coincides with the spec's
formula (`specChecksum`) on any header whose filename array is at most
256 bytes long: the loop's extra bound `i < MAX_FILENAME_LENGTH` never
truncates a sum the spec's `sum(filename[0..filenameLength))` would
include, because there are only 256 bytes to sum in the first place. -/
theorem calculateChecksum_eq_spec (h : StegoHeader)
    (hfn : h.filename.length ≤ 256) :
    calculateChecksum h = specChecksum h := by
  unfold calculateChecksum specChecksum MAX_FILENAME_LENGTH
  rcases le_total h.filenameLength 256 with hle | hge
  · rw [min_eq_left hle]
  · rw [min_eq_right hge, List.take_of_length_le hfn,
      List.take_of_length_le (le_trans hfn hge)]

/-- The header built by `createHeader` validates. -/
theorem validateB_createHeader (p : List Nat) (n : Nat) :
    validateB (createHeader p n) = true := by
  unfold validateB
  rw [createHeader_magic]
  simp only [beq_self_eq_true, Bool.true_and]
  show (calculateChecksum _ == _) = true
  rw [beq_iff_eq]
  rfl

/-- The first `filenameLength` bytes recorded in a built header are the
path's final component truncated to 255 bytes. -/
theorem createHeader_filename_take (p : List Nat) (n : Nat) :
    (createHeader p n).filename.take (createHeader p n).filenameLength =
      (extractFilename p).take 255 := by
  have hM : MAX_FILENAME_LENGTH - 1 = 255 := rfl
  unfold createHeader
  dsimp only
  simp only [hM]
  rw [List.take_append_eq_append_take, List.length_take, List.take_take,
    min_self]
  have h2 : min (extractFilename p).length 255 -
      min (min (extractFilename p).length 255) (extractFilename p).length = 0 := by
    omega
  rw [h2, List.take_zero, List.append_nil, List.take_eq_take]
  omega

/-! ## Scan lemmas -/

/-- Characterization of a successful backward scan from `n`: the hit is
the largest valid offset in `[1, n]`; offset `0` is never probed. -/
theorem scanFrom_eq_some_iff (data : List Nat) (n j : Nat) :
    scanFrom data n = some j ↔
      1 ≤ j ∧ j ≤ n ∧ probeValid data j = true ∧
        ∀ k, j < k → k ≤ n → probeValid data k = false := by
  induction n with
  | zero =>
    simp only [scanFrom]
    constructor
    · intro hcon
      cases hcon
    · rintro ⟨h1, h2, -, -⟩
      omega
  | succ n ih =>
    rw [scanFrom]
    by_cases hp : probeValid data (n + 1)
    · rw [if_pos hp]
      constructor
      · intro hj
        have hjn : j = n + 1 := by
          cases hj
          rfl
        subst hjn
        exact ⟨by omega, le_rfl, hp, fun k hk1 hk2 => by omega⟩
      · rintro ⟨h1, h2, h3, h4⟩
        rcases Nat.lt_or_ge j (n + 1) with hlt | hge
        · have := h4 (n + 1) hlt le_rfl
          rw [this] at hp
          cases hp
        · have : j = n + 1 := by omega
          rw [this]
    · rw [if_neg hp, ih]
      constructor
      · rintro ⟨h1, h2, h3, h4⟩
        refine ⟨h1, by omega, h3, fun k hk1 hk2 => ?_⟩
        rcases Nat.lt_or_ge n k with hnk | hnk
        · have : k = n + 1 := by omega
          subst this
          exact Bool.eq_false_iff.mpr hp
        · exact h4 k hk1 hnk
      · rintro ⟨h1, h2, h3, h4⟩
        have hjn : j ≠ n + 1 := by
          intro he
          subst he
          rw [h3] at hp
          exact hp rfl
        exact ⟨h1, by omega, h3, fun k hk1 hk2 => h4 k hk1 (by omega)⟩

/-- A failed backward scan from `n` means no offset in `[1, n]` holds a
valid window (offset `0` is never probed, so its window is irrelevant). -/
theorem scanFrom_eq_none_iff (data : List Nat) (n : Nat) :
    scanFrom data n = none ↔
      ∀ k, 1 ≤ k → k ≤ n → probeValid data k = false := by
  induction n with
  | zero =>
    constructor
    · intro _ k hk1 hk2
      omega
    · intro _
      rfl
  | succ n ih =>
    rw [scanFrom]
    by_cases hp : probeValid data (n + 1)
    · rw [if_pos hp]
      constructor
      · intro hcon
        cases hcon
      · intro hall
        have := hall (n + 1) (by omega) le_rfl
        rw [this] at hp
        cases hp
    · rw [if_neg hp, ih]
      constructor
      · intro hall k hk1 hk2
        rcases Nat.lt_or_ge n k with hnk | hnk
        · have : k = n + 1 := by omega
          subst this
          exact Bool.eq_false_iff.mpr hp
        · exact hall k hk1 hnk
      · intro hall k hk1 hk2
        exact hall k hk1 (by omega)

/-! ## Pipeline lemmas -/

/-- A window that starts past a prefix only sees the suffix. -/
theorem window_append_ge {pre post : List Nat} {k : Nat}
    (h : pre.length ≤ k) :
    window (pre ++ post) k = window post (k - pre.length) := by
  unfold window
  rw [drop_append_ge h]

/-- A probe that starts past a prefix only sees the suffix. -/
theorem probeValid_append_ge {pre post : List Nat} {k : Nat}
    (h : pre.length ≤ k) :
    probeValid (pre ++ post) k = probeValid post (k - pre.length) := by
  unfold probeValid
  rw [window_append_ge h]

/-- Embedding succeeds whenever the host meets the minimum size and the
payload fits the computed capacity, and the output is exactly
`host ++ header ++ payload`. -/
theorem hideFilePure_ok (p1 p2 p3 : List Nat) (hd host : List Nat)
    (hmin : MIN_HOST_SIZE ≤ host.length)
    (hcap : hd.length ≤ castSizeTMul085 host.length - headerSize) :
    hideFilePure p1 p2 p3 hd host =
      .ok (generateOutputFilename p3 (extractFilename p2),
           host ++ serializeHeader (createHeader p1 hd.length) ++ hd) := by
  have hge := le_castSizeTMul085 hmin
  have hval : validateAndCalculateMaxSize hd.length host.length =
      .ok (castSizeTMul085 host.length - headerSize) := by
    unfold validateAndCalculateMaxSize
    rw [if_neg (by omega)]
    dsimp only
    rw [if_neg (by unfold headerSize; omega), if_neg (by omega)]
  unfold hideFilePure
  rw [hval]
  rfl

/-- Shape of a successful extraction, given what the scan found. -/
theorem extractFilePure_found (oP data : List Nat) (i : Nat)
    (h : StegoHeader)
    (hbig : headerSize ≤ data.length)
    (hscan : scanFrom data (data.length - headerSize) = some i)
    (hdeser : deserializeHeader (window data i) = .ok h)
    (hval : validateB h = true)
    (hsize : i + headerSize + h.hiddenFileSize ≤ data.length) :
    extractFilePure oP data =
      .ok (generateOutputFilename oP (cString h.filename),
           (data.drop (i + headerSize)).take h.hiddenFileSize, h) := by
  unfold extractFilePure
  rw [if_neg (by omega), hscan]
  dsimp only
  rw [hdeser]
  dsimp only
  rw [hval]
  simp only [Bool.not_true, Bool.false_eq_true, if_false]
  rw [if_neg (by omega)]

/-- The "size mismatch" branch: a found header whose declared payload
size runs past the end of the file. -/
theorem extractFilePure_size_mismatch (oP data : List Nat) (i : Nat)
    (h : StegoHeader)
    (hbig : headerSize ≤ data.length)
    (hscan : scanFrom data (data.length - headerSize) = some i)
    (hdeser : deserializeHeader (window data i) = .ok h)
    (hval : validateB h = true)
    (hsize : data.length < i + headerSize + h.hiddenFileSize) :
    extractFilePure oP data = .error .formatSizeMismatch := by
  unfold extractFilePure
  rw [if_neg (by omega), hscan]
  dsimp only
  rw [hdeser]
  dsimp only
  rw [hval]
  simp only [Bool.not_true, Bool.false_eq_true, if_false]
  rw [if_pos (by omega)]

/-- `Except.map` on a success, as a rewrite rule. -/
theorem except_map_ok {ε α β : Type} (g : α → β) (a : α) :
    (Except.ok a : Except ε α).map g = .ok (g a) := rfl

/-! ## Claim theorems -/

/-- C1 (amended): for every host of at least 10240 bytes and every
payload whose size is at most the computed capacity and below `2 ^ 32`,
and such that no probe window of the combined file starting strictly
after the host's end validates (the scan stops at the *last* valid
window, so a payload that itself contains a checksum-valid header would
preempt the true one — see `claim_C1_counterexample`), extracting the
file produced by embedding yields payload bytes identical to the
original payload, and the filename recorded in the recovered header is
the payload path's final component truncated to at most 255 bytes. -/
theorem claim_C1_roundtrip
    (hiddenFilePath hostFilePath outputFilePath extractOutPath : List Nat)
    (hiddenData hostData : List Nat)
    (hmin : MIN_HOST_SIZE ≤ hostData.length)
    (hcap : hiddenData.length ≤ castSizeTMul085 hostData.length - headerSize)
    (h32 : hiddenData.length < 2 ^ 32)
    (hnospur : ∀ k, hostData.length < k →
        k ≤ hostData.length + hiddenData.length →
        probeValid (hostData ++
          serializeHeader (createHeader hiddenFilePath hiddenData.length) ++
          hiddenData) k = false) :
    hideFilePure hiddenFilePath hostFilePath outputFilePath hiddenData
        hostData =
      .ok (generateOutputFilename outputFilePath (extractFilename hostFilePath),
        hostData ++
          serializeHeader (createHeader hiddenFilePath hiddenData.length) ++
          hiddenData) ∧
    extractFilePure extractOutPath
        (hostData ++
          serializeHeader (createHeader hiddenFilePath hiddenData.length) ++
          hiddenData) =
      .ok (generateOutputFilename extractOutPath
            (cString (createHeader hiddenFilePath hiddenData.length).filename),
          hiddenData,
          createHeader hiddenFilePath hiddenData.length) ∧
    (createHeader hiddenFilePath hiddenData.length).filenameLength =
      min (extractFilename hiddenFilePath).length 255 ∧
    (createHeader hiddenFilePath hiddenData.length).filename.take
        (createHeader hiddenFilePath hiddenData.length).filenameLength =
      (extractFilename hiddenFilePath).take 255 := by
  set hdr := createHeader hiddenFilePath hiddenData.length with hhdr
  set S := serializeHeader hdr with hSdef
  set data := hostData ++ S ++ hiddenData with hdata
  have hS : S.length = headerSize := serializeHeader_length hdr
  have hwf : HeaderWF hdr := createHeader_wf _ _
  have hdlen : data.length = hostData.length + (headerSize + hiddenData.length) := by
    rw [hdata, List.length_append, List.length_append, hS]
    omega
  have hwin : window data hostData.length = S := by
    rw [hdata, List.append_assoc]
    unfold window
    rw [List.drop_left' rfl, List.take_left' hS]
  have hdeser : deserializeHeader (window data hostData.length) = .ok hdr := by
    rw [hwin]
    have := deserialize_serialize hdr hwf []
    rwa [List.append_nil] at this
  have hprobe : probeValid data hostData.length = true := by
    unfold probeValid
    rw [hdeser]
    dsimp only
    rw [createHeader_magic, validateB_createHeader]
    simp [MAGIC_SIGNATURE]
  have hmin1 : 1 ≤ hostData.length := by
    have : MIN_HOST_SIZE = 10240 := rfl
    omega
  have hscan : scanFrom data (data.length - headerSize) = some hostData.length := by
    rw [scanFrom_eq_some_iff]
    refine ⟨hmin1, by omega, hprobe, fun k hk1 hk2 => ?_⟩
    exact hnospur k hk1 (by omega)
  have hsizeEq : hdr.hiddenFileSize = hiddenData.length := by
    rw [hhdr, createHeader_hiddenFileSize]
    exact Nat.mod_eq_of_lt h32
  have hpayload : (data.drop (hostData.length + headerSize)).take
      hdr.hiddenFileSize = hiddenData := by
    rw [hsizeEq, hdata, List.append_assoc, drop_append_ge (by omega),
      Nat.add_sub_cancel_left, drop_append_ge (le_of_eq hS),
      show headerSize - S.length = 0 by omega, List.drop_zero,
      List.take_length]
  refine ⟨hideFilePure_ok _ _ _ _ _ hmin hcap, ?_, rfl,
    createHeader_filename_take _ _⟩
  have hfound := extractFilePure_found extractOutPath data hostData.length hdr
    (by omega) hscan hdeser (validateB_createHeader _ _) (by omega)
  rw [hfound, hpayload]

/-- C1 as literally stated is false: embedding the 276-byte payload
that is itself a checksum-valid serialized header (for name "x", size
0) into a minimal 10240-byte host succeeds, but extracting the produced
file finds the payload's own header first (the scan stops at the last
valid window) and returns the empty byte string instead of the original
276-byte payload. -/
theorem claim_C1_counterexample :
    hideFilePure [112] [104] [] (serializeHeader (createHeader [120] 0))
        (List.replicate 10240 0) =
      .ok (generateOutputFilename [] (extractFilename [104]),
        List.replicate 10240 0 ++ serializeHeader (createHeader [112] 276) ++
          serializeHeader (createHeader [120] 0)) ∧
    (extractFilePure []
        (List.replicate 10240 0 ++ serializeHeader (createHeader [112] 276) ++
          serializeHeader (createHeader [120] 0))).map (fun r => r.2.1) =
      .ok [] ∧
    serializeHeader (createHeader [120] 0) ≠ [] := by
  set fake := createHeader [120] 0 with hfake
  set plB := serializeHeader fake with hplB
  set S2 := serializeHeader (createHeader [112] 276) with hS2
  set host := (List.replicate 10240 0 : List Nat) with hhostdef
  set data := host ++ S2 ++ plB with hdata
  have hpl : plB.length = 276 := serializeHeader_length _
  have hhost : host.length = 10240 := List.length_replicate _ _
  have hcast : castSizeTMul085 10240 = 8704 := by
    rw [castSizeTMul085_eq_floor (by norm_num)]
  have hS2len : S2.length = 276 := serializeHeader_length _
  have hpre : (host ++ S2).length = 10516 := by
    rw [List.length_append, hhost, hS2len]
  have hdlen : data.length = 10792 := by
    rw [hdata, List.length_append, hpre, hpl]
  have hwin : window data 10516 = plB := by
    rw [hdata, window_append_ge (by rw [hpre])]
    rw [hpre, show (10516 : Nat) - 10516 = 0 from rfl]
    unfold window
    rw [List.drop_zero]
    exact List.take_of_length_le (by rw [hpl]; norm_num [headerSize])
  have hdeser : deserializeHeader (window data 10516) = .ok fake := by
    rw [hwin]
    have := deserialize_serialize fake (createHeader_wf _ _) []
    rwa [List.append_nil] at this
  have hprobe : probeValid data 10516 = true := by
    unfold probeValid
    rw [hdeser]
    dsimp only
    rw [hfake, createHeader_magic, validateB_createHeader]
    simp [MAGIC_SIGNATURE]
  have hscan : scanFrom data (data.length - headerSize) = some 10516 := by
    rw [hdlen, show (10792 : Nat) - headerSize = 10516 by norm_num [headerSize]]
    rw [scanFrom_eq_some_iff]
    exact ⟨by norm_num, le_rfl, hprobe, fun k hk1 hk2 => by omega⟩
  have hfakesize : fake.hiddenFileSize = 0 := by
    rw [hfake, createHeader_hiddenFileSize]
    rfl
  have hfound := extractFilePure_found [] data 10516 fake
    (by rw [hdlen]; norm_num [headerSize]) hscan hdeser
    (by rw [hfake]; exact validateB_createHeader _ _)
    (by rw [hfakesize, hdlen]; norm_num [headerSize])
  have hemb := hideFilePure_ok [112] [104] [] plB host
    (by rw [hhost]; norm_num [MIN_HOST_SIZE])
    (by rw [hpl, hhost, hcast]; norm_num [headerSize])
  rw [hpl, ← hS2, ← hdata] at hemb
  refine ⟨hemb, ?_, ?_⟩
  · rw [hfound, hfakesize, List.take_zero, except_map_ok]
  · intro hcon
    rw [hcon] at hpl
    cases hpl

/-- C2 (amended): the serialized header is exactly 276 bytes — 272
bytes of fields plus 4 bytes of ABI alignment padding, since the C++
struct is not packed — so every successful embed produces an output of
exactly `hostSize + 276 + payloadSize` bytes. -/
theorem claim_C2_output_length (p1 p2 p3 hd host : List Nat)
    (hmin : MIN_HOST_SIZE ≤ host.length)
    (hcap : hd.length ≤ castSizeTMul085 host.length - headerSize) :
    (serializeHeader (createHeader p1 hd.length)).length = 276 ∧
    (hideFilePure p1 p2 p3 hd host).map (fun r => r.2.length) =
      .ok (host.length + 276 + hd.length) := by
  refine ⟨serializeHeader_length _, ?_⟩
  rw [hideFilePure_ok p1 p2 p3 hd host hmin hcap, except_map_ok]
  have : (host ++ serializeHeader (createHeader p1 hd.length) ++ hd).length =
      host.length + 276 + hd.length := by
    rw [List.length_append, List.length_append, serializeHeader_length]
    unfold headerSize
    omega
  rw [this]

/-- C2's witness: embedding a 5-byte payload into a 20000-byte host
yields a 20281-byte output. -/
theorem claim_C2_output_length_witness :
    (hideFilePure [112] [104] [] [104, 101, 108, 108, 111]
        (List.replicate 20000 0)).map (fun r => r.2.length) = .ok 20281 := by
  have hhost : (List.replicate 20000 0 : List Nat).length = 20000 :=
    List.length_replicate _ _
  have hcast : castSizeTMul085 20000 = 17000 := by
    rw [castSizeTMul085_eq_floor (by norm_num)]
  have h := (claim_C2_output_length [112] [104] []
    [104, 101, 108, 108, 111] (List.replicate 20000 0)
    (by rw [hhost]; norm_num [MIN_HOST_SIZE])
    (by rw [hhost, hcast]; norm_num [headerSize])).2
  rw [hhost] at h
  exact h

/-- C2 as literally stated is false: the header is not 272 bytes (the
unpacked struct has 4 padding bytes), so the concrete scenario of a
5-byte payload in a 20000-byte host yields 20281 bytes, not
20000 + 272 + 5 = 20277. -/
theorem claim_C2_counterexample :
    (hideFilePure [112] [104] [] [104, 101, 108, 108, 111]
        (List.replicate 20000 0)).map (fun r => r.2.length) = .ok 20281 ∧
    (20281 : Nat) ≠ 20000 + 272 + 5 := by
  have hhost : (List.replicate 20000 0 : List Nat).length = 20000 :=
    List.length_replicate _ _
  have hcast : castSizeTMul085 20000 = 17000 := by
    rw [castSizeTMul085_eq_floor (by norm_num)]
  have hemb := hideFilePure_ok [112] [104] [] [104, 101, 108, 108, 111]
    (List.replicate 20000 0)
    (by rw [hhost]; norm_num [MIN_HOST_SIZE])
    (by rw [hhost, hcast]; norm_num [headerSize])
  constructor
  · rw [hemb, except_map_ok]
    have : ((List.replicate 20000 0 : List Nat) ++
        serializeHeader (createHeader [112]
          ([104, 101, 108, 108, 111] : List Nat).length) ++
        [104, 101, 108, 108, 111]).length = 20281 := by
      rw [List.length_append, List.length_append, serializeHeader_length,
        hhost]
      norm_num [headerSize]
    rw [this]
  · norm_num

/-- C3: the backward scan probes offsets from `data.length - 276` down
to 1 inclusive, never offset 0; it stops at the first probed (i.e.
largest) offset whose window deserializes to a header passing
`validate`; if no probed window is valid, extraction fails with the
`InvalidFormatException` "No hidden data found in file". -/
theorem claim_C3_backward_scan (oP data : List Nat)
    (hlen : headerSize ≤ data.length) :
    (∀ j, scanFrom data (data.length - headerSize) = some j ↔
      1 ≤ j ∧ j ≤ data.length - headerSize ∧ probeValid data j = true ∧
        ∀ k, j < k → k ≤ data.length - headerSize →
          probeValid data k = false) ∧
    (scanFrom data (data.length - headerSize) = none ↔
      ∀ k, 1 ≤ k → k ≤ data.length - headerSize →
        probeValid data k = false) ∧
    (scanFrom data (data.length - headerSize) = none →
      extractFilePure oP data = .error .formatNoHidden) := by
  refine ⟨fun j => scanFrom_eq_some_iff data _ j,
    scanFrom_eq_none_iff data _, fun hnone => ?_⟩
  unfold extractFilePure
  rw [if_neg (by omega), hnone]

/-- C3's witness: a 276-byte all-zero file is scanned (the only start
index would be 0, which is never probed) and extraction fails with
"No hidden data found in file". -/
theorem claim_C3_backward_scan_witness :
    scanFrom (List.replicate 276 0)
      ((List.replicate 276 0 : List Nat).length - headerSize) = none ∧
    extractFilePure [] (List.replicate 276 0) =
      .error .formatNoHidden := by
  have hlen : (List.replicate 276 0 : List Nat).length = 276 :=
    List.length_replicate _ _
  have h := claim_C3_backward_scan [] (List.replicate 276 0)
    (by rw [hlen]; norm_num [headerSize])
  have hnone : scanFrom (List.replicate 276 0)
      ((List.replicate 276 0 : List Nat).length - headerSize) = none := by
    rw [hlen, show (276 : Nat) - headerSize = 0 by norm_num [headerSize]]
    rfl
  exact ⟨hnone, h.2.2 hnone⟩

/-- C4 (amended): `validateAndCalculateMaxSize` fails with a
`FileSizeException` whenever `hostSize < 10240`; otherwise the capacity
is the double-precision product `hostSize * 0.85` truncated, minus the
276-byte header width — which equals the exact
`⌊hostSize * 0.85⌋ - 276 = 17 * hostSize / 20 - 276` for every
`hostSize ≤ 2 ^ 40` (but not for some larger sizes, see the
counterexample) — a payload of exactly the capacity succeeds, and any
larger payload fails with a `FileSizeException`. -/
theorem claim_C4_capacity (hiddenSize hostSize : Nat) :
    (hostSize < MIN_HOST_SIZE →
      validateAndCalculateMaxSize hiddenSize hostSize =
        .error .sizeMinHost ∧ StegoError.sizeMinHost.kind = .SizeError) ∧
    (MIN_HOST_SIZE ≤ hostSize →
      (hostSize ≤ 2 ^ 40 → castSizeTMul085 hostSize = 17 * hostSize / 20) ∧
      (hiddenSize ≤ castSizeTMul085 hostSize - headerSize →
        validateAndCalculateMaxSize hiddenSize hostSize =
          .ok (castSizeTMul085 hostSize - headerSize)) ∧
      (castSizeTMul085 hostSize - headerSize < hiddenSize →
        validateAndCalculateMaxSize hiddenSize hostSize =
          .error .sizeExceeds ∧ StegoError.sizeExceeds.kind = .SizeError)) := by
  constructor
  · intro hlt
    refine ⟨?_, rfl⟩
    unfold validateAndCalculateMaxSize
    rw [if_pos hlt]
  · intro hge
    have hbig := le_castSizeTMul085 hge
    refine ⟨fun h40 => castSizeTMul085_eq_floor h40, fun hfit => ?_,
      fun hover => ?_⟩
    · unfold validateAndCalculateMaxSize
      rw [if_neg (by omega)]
      dsimp only
      rw [if_neg (by unfold headerSize; omega), if_neg (by omega)]
    · refine ⟨?_, rfl⟩
      unfold validateAndCalculateMaxSize
      rw [if_neg (by omega)]
      dsimp only
      rw [if_neg (by unfold headerSize; omega), if_pos (by omega)]

/-- C4's witness: for the 20000-byte host the capacity is
`17000 - 276 = 16724`; a 16724-byte payload is accepted, a 16725-byte
payload is rejected, and a 10239-byte host is rejected outright. -/
theorem claim_C4_capacity_witness :
    castSizeTMul085 20000 = 17000 ∧
    validateAndCalculateMaxSize 16724 20000 = .ok 16724 ∧
    validateAndCalculateMaxSize 16725 20000 = .error .sizeExceeds ∧
    validateAndCalculateMaxSize 0 10239 = .error .sizeMinHost := by
  have h1 := (claim_C4_capacity 16724 20000).2 (by norm_num [MIN_HOST_SIZE])
  have hcast : castSizeTMul085 20000 = 17000 := h1.1 (by norm_num)
  have h2 := (claim_C4_capacity 16725 20000).2 (by norm_num [MIN_HOST_SIZE])
  have h3 := (claim_C4_capacity 0 10239).1 (by norm_num [MIN_HOST_SIZE])
  refine ⟨hcast, ?_, ?_, h3.1⟩
  · have := h1.2.1 (by rw [hcast]; norm_num [headerSize])
    rwa [hcast, show (17000 : Nat) - headerSize = 16724
      by norm_num [headerSize]] at this
  · exact (h2.2.2 (by rw [hcast]; norm_num [headerSize])).1

/-- C4 as literally stated is false for very large hosts: at
`hostSize = 6000000000000007` (≈ 5.3 PiB) the double-precision product
rounds `0.85 * hostSize` up across an integer boundary, so the computed
capacity is `5100000000000006 - 276`, one byte more than the exact
`⌊hostSize * 0.85⌋ - 276 = 5100000000000005 - 276`. -/
theorem claim_C4_counterexample :
    validateAndCalculateMaxSize 0 6000000000000007 =
      .ok 5099999999999730 ∧
    (17 * 6000000000000007 / 20 - 276 : Nat) = 5099999999999729 ∧
    (5099999999999730 : Nat) ≠ 5099999999999729 := by
  refine ⟨by decide, by norm_num, by norm_num⟩

/-- C5: `validate` holds exactly when the magic matches the constant
and the stored checksum equals the spec's additive formula (sum of
`magic`, `version`, `payloadSize`, `filenameLength` and the first
`filenameLength` filename bytes, modulo `2 ^ 32`), and every header
produced by `createHeader` satisfies this equation.  (The hypothesis
`filename.length = 256` holds for every header the program constructs
or deserializes — the field models a `char[256]` array.) -/
theorem claim_C5_checksum_invariant :
    (∀ h : StegoHeader, h.filename.length = 256 →
      (validateB h = true ↔
        h.magic = MAGIC_SIGNATURE ∧ h.checksum = specChecksum h)) ∧
    (∀ (p : List Nat) (n : Nat),
      (createHeader p n).checksum = specChecksum (createHeader p n) ∧
      validateB (createHeader p n) = true) := by
  constructor
  · intro h hfn
    unfold validateB
    rw [Bool.and_eq_true, beq_iff_eq, beq_iff_eq,
      calculateChecksum_eq_spec h (le_of_eq hfn)]
  · intro p n
    refine ⟨?_, validateB_createHeader p n⟩
    have h1 : (createHeader p n).checksum = calculateChecksum (createHeader p n) :=
      rfl
    rw [h1, calculateChecksum_eq_spec _ (le_of_eq (createHeader_filename_length p n))]

/-- C5's witness at the header built for name "a" and size 3. -/
theorem claim_C5_checksum_invariant_witness :
    (createHeader [97] 3).checksum = specChecksum (createHeader [97] 3) ∧
    validateB (createHeader [97] 3) = true ∧
    (validateB (createHeader [97] 3) = true ↔
      (createHeader [97] 3).magic = MAGIC_SIGNATURE ∧
        (createHeader [97] 3).checksum = specChecksum (createHeader [97] 3)) :=
  ⟨(claim_C5_checksum_invariant.2 [97] 3).1,
   (claim_C5_checksum_invariant.2 [97] 3).2,
   claim_C5_checksum_invariant.1 _ (createHeader_filename_length [97] 3)⟩

/-- A `deserializeHeader` failure can only be the "Invalid header size"
exception. -/
theorem deserializeHeader_error {b : List Nat} {e : StegoError}
    (h : deserializeHeader b = .error e) : e = .formatBadHeaderSize := by
  unfold deserializeHeader at h
  split_ifs at h
  cases h
  rfl

/-- C6: once the scan has located a valid header at `headerOffset`, if
`headerOffset + 276 + payloadSize` exceeds the file length the
extraction fails with "Corrupted file: size mismatch" (no out-of-range
slice is taken); otherwise exactly `payloadSize` bytes starting at
`headerOffset + 276` are returned as the payload. -/
theorem claim_C6_size_guard (oP data : List Nat) (i : Nat)
    (h : StegoHeader)
    (hbig : headerSize ≤ data.length)
    (hscan : scanFrom data (data.length - headerSize) = some i)
    (hdeser : deserializeHeader (window data i) = .ok h)
    (hval : validateB h = true) :
    (data.length < i + headerSize + h.hiddenFileSize →
      extractFilePure oP data = .error .formatSizeMismatch) ∧
    (i + headerSize + h.hiddenFileSize ≤ data.length →
      extractFilePure oP data =
        .ok (generateOutputFilename oP (cString h.filename),
             (data.drop (i + headerSize)).take h.hiddenFileSize, h) ∧
      ((data.drop (i + headerSize)).take h.hiddenFileSize).length =
        h.hiddenFileSize) := by
  constructor
  · intro hover
    exact extractFilePure_size_mismatch oP data i h hbig hscan hdeser hval
      (by omega)
  · intro hfit
    refine ⟨extractFilePure_found oP data i h hbig hscan hdeser hval
      (by omega), ?_⟩
    rw [List.length_take, List.length_drop]
    omega

/-- C6's witness: a 277-byte file holding one junk byte and a valid
header for a 0-byte payload extracts that empty payload; the same file
with the header instead declaring a 5-byte payload (which would run
past the end of the file) fails with "Corrupted file: size mismatch". -/
theorem claim_C6_size_guard_witness :
    extractFilePure [] ([0] ++ serializeHeader (createHeader [120] 0)) =
      .ok (generateOutputFilename []
            (cString (createHeader [120] 0).filename),
          (([0] ++ serializeHeader (createHeader [120] 0)).drop
              (1 + headerSize)).take (createHeader [120] 0).hiddenFileSize,
          createHeader [120] 0) ∧
    extractFilePure [] ([0] ++ serializeHeader (createHeader [120] 5)) =
      .error .formatSizeMismatch := by
  have common : ∀ n : Nat,
      ([0] ++ serializeHeader (createHeader [120] n)).length = 277 ∧
      deserializeHeader (window ([0] ++ serializeHeader (createHeader [120] n)) 1) =
        .ok (createHeader [120] n) ∧
      scanFrom ([0] ++ serializeHeader (createHeader [120] n))
        (([0] ++ serializeHeader (createHeader [120] n)).length - headerSize) =
        some 1 := by
    intro n
    have hS : (serializeHeader (createHeader [120] n)).length = 276 :=
      serializeHeader_length _
    have hlen : ([0] ++ serializeHeader (createHeader [120] n)).length = 277 := by
      rw [List.length_append, hS]
      rfl
    have hwin : window ([0] ++ serializeHeader (createHeader [120] n)) 1 =
        serializeHeader (createHeader [120] n) := by
      rw [window_append_ge (by simp)]
      simp only [List.length_singleton, Nat.sub_self]
      unfold window
      rw [List.drop_zero]
      exact List.take_of_length_le (by rw [hS]; norm_num [headerSize])
    have hdeser : deserializeHeader
        (window ([0] ++ serializeHeader (createHeader [120] n)) 1) =
        .ok (createHeader [120] n) := by
      rw [hwin]
      have := deserialize_serialize (createHeader [120] n)
        (createHeader_wf _ _) []
      rwa [List.append_nil] at this
    have hprobe : probeValid ([0] ++ serializeHeader (createHeader [120] n)) 1 =
        true := by
      unfold probeValid
      rw [hdeser]
      dsimp only
      rw [createHeader_magic, validateB_createHeader]
      simp [MAGIC_SIGNATURE]
    refine ⟨hlen, hdeser, ?_⟩
    rw [hlen, show (277 : Nat) - headerSize = 1 by norm_num [headerSize]]
    rw [scanFrom_eq_some_iff]
    exact ⟨le_rfl, le_rfl, hprobe, fun k hk1 hk2 => by omega⟩
  obtain ⟨hlen0, hdeser0, hscan0⟩ := common 0
  obtain ⟨hlen5, hdeser5, hscan5⟩ := common 5
  have hsz0 : (createHeader [120] 0).hiddenFileSize = 0 := rfl
  have hsz5 : (createHeader [120] 5).hiddenFileSize = 5 := rfl
  constructor
  · exact ((claim_C6_size_guard [] _ 1 _ (by rw [hlen0]; norm_num [headerSize])
      hscan0 hdeser0 (validateB_createHeader _ _)).2
      (by rw [hsz0, hlen0]; norm_num [headerSize])).1
  · exact (claim_C6_size_guard [] _ 1 _ (by rw [hlen5]; norm_num [headerSize])
      hscan5 hdeser5 (validateB_createHeader _ _)).1
      (by rw [hsz5, hlen5]; norm_num [headerSize])

/-- C7 (amended): extraction fails with "File too small to contain
hidden data" exactly when the input is shorter than the 276-byte
(padded) header width, before any scan probe is attempted; a file of at
least 276 bytes never produces that error. -/
theorem claim_C7_too_small (oP data : List Nat) :
    (data.length < headerSize →
      extractFilePure oP data = .error .formatTooSmall) ∧
    (headerSize ≤ data.length →
      extractFilePure oP data ≠ .error .formatTooSmall) := by
  constructor
  · intro hlt
    unfold extractFilePure
    rw [if_pos hlt]
  · intro hge
    unfold extractFilePure
    rw [if_neg (by omega)]
    cases hscan : scanFrom data (data.length - headerSize) with
    | none => simp
    | some i =>
      dsimp only
      cases hdes : deserializeHeader (window data i) with
      | error e =>
        have he := deserializeHeader_error hdes
        subst he
        simp
      | ok h =>
        dsimp only
        split_ifs <;> simp

/-- C7's witness: a 275-byte file is rejected as too small; a 276-byte
file is not (it fails later, in the scan). -/
theorem claim_C7_too_small_witness :
    extractFilePure [] (List.replicate 275 0) = .error .formatTooSmall ∧
    extractFilePure [] (List.replicate 276 0) ≠ .error .formatTooSmall :=
  ⟨(claim_C7_too_small [] _).1
      (by rw [List.length_replicate]; norm_num [headerSize]),
   (claim_C7_too_small [] _).2
      (by rw [List.length_replicate]; norm_num [headerSize])⟩

/-- C7 as literally stated is false: the threshold is the padded
276-byte `sizeof(StegoHeader)`, not 272, so a 272-byte file — which the
claim says is big enough — still fails with "File too small to contain
hidden data". -/
theorem claim_C7_counterexample :
    extractFilePure [] (List.replicate 272 0) = .error .formatTooSmall ∧
    ¬((List.replicate 272 0 : List Nat).length < 272) := by
  constructor
  · unfold extractFilePure
    rw [if_pos (by rw [List.length_replicate]; norm_num [headerSize])]
  · rw [List.length_replicate]
    omega

/-- C8: a probe window whose parsed magic matches the constant but
whose stored checksum does not match the recomputed checksum is skipped
by the scan (the scan simply moves to the next lower offset), and any
offset the scan accepts satisfies both the magic equality and the
checksum equality — so raw magic bytes inside a payload do not by
themselves stop the scan. -/
theorem claim_C8_magic_needs_checksum :
    (∀ (data : List Nat) (k : Nat) (h : StegoHeader),
      deserializeHeader (window data (k + 1)) = .ok h →
      h.magic = MAGIC_SIGNATURE →
      h.checksum ≠ calculateChecksum h →
      scanFrom data (k + 1) = scanFrom data k) ∧
    (∀ (data : List Nat) (n j : Nat), scanFrom data n = some j →
      ∃ h, deserializeHeader (window data j) = .ok h ∧
        h.magic = MAGIC_SIGNATURE ∧ h.checksum = calculateChecksum h) := by
  constructor
  · intro data k h hdes hmagic hbad
    have hpv : probeValid data (k + 1) = false := by
      unfold probeValid
      rw [hdes]
      dsimp only
      rw [Bool.and_eq_false_iff]
      right
      unfold validateB
      rw [Bool.and_eq_false_iff]
      right
      rw [beq_eq_false_iff_ne]
      exact hbad
    rw [scanFrom, hpv]
    simp
  · intro data n j hscan
    have hp := ((scanFrom_eq_some_iff data n j).mp hscan).2.2.1
    unfold probeValid at hp
    cases hdes : deserializeHeader (window data j) with
    | error e =>
      rw [hdes] at hp
      cases hp
    | ok h =>
      rw [hdes] at hp
      dsimp only at hp
      rw [Bool.and_eq_true, beq_iff_eq] at hp
      obtain ⟨hm, hv⟩ := hp
      unfold validateB at hv
      rw [Bool.and_eq_true, beq_iff_eq, beq_iff_eq] at hv
      exact ⟨h, rfl, hm, hv.2⟩

/-- C8's witness: a 277-byte file whose tail is a serialized header
with correct magic but corrupted checksum is skipped by the probe at
offset 1 (so the scan finds nothing), while the same file with the
correct checksum is accepted at offset 1 with both equalities holding. -/
theorem claim_C8_magic_needs_checksum_witness :
    scanFrom ([0] ++ serializeHeader
        { createHeader [120] 0 with checksum := 151587081 }) 1 =
      scanFrom ([0] ++ serializeHeader
        { createHeader [120] 0 with checksum := 151587081 }) 0 ∧
    scanFrom ([0] ++ serializeHeader
        { createHeader [120] 0 with checksum := 151587081 }) 0 = none ∧
    ({ createHeader [120] 0 with checksum := 151587081 } : StegoHeader).magic =
      MAGIC_SIGNATURE ∧
    ({ createHeader [120] 0 with checksum := 151587081 } : StegoHeader).checksum ≠
      calculateChecksum { createHeader [120] 0 with checksum := 151587081 } ∧
    (∃ h, deserializeHeader (window
        ([0] ++ serializeHeader (createHeader [120] 0)) 1) = .ok h ∧
      h.magic = MAGIC_SIGNATURE ∧ h.checksum = calculateChecksum h) := by
  have hwfBad : HeaderWF { createHeader [120] 0 with checksum := 151587081 } := by
    obtain ⟨a, b, c, d, -, f⟩ := createHeader_wf [120] 0
    exact ⟨a, b, c, d, by norm_num, f⟩
  have hbad : ({ createHeader [120] 0 with checksum := 151587081 } :
      StegoHeader).checksum ≠
      calculateChecksum { createHeader [120] 0 with checksum := 151587081 } := by
    decide
  have hwinB : ∀ hh : StegoHeader, HeaderWF hh →
      deserializeHeader (window ([0] ++ serializeHeader hh) 1) = .ok hh := by
    intro hh hwf
    have hS : (serializeHeader hh).length = 276 := serializeHeader_length _
    rw [window_append_ge (by simp)]
    simp only [List.length_singleton, Nat.sub_self]
    unfold window
    rw [List.drop_zero,
      List.take_of_length_le (by rw [hS]; norm_num [headerSize])]
    have := deserialize_serialize hh hwf []
    rwa [List.append_nil] at this
  refine ⟨claim_C8_magic_needs_checksum.1 _ 0 _
      (hwinB _ hwfBad) rfl hbad, rfl, rfl, hbad, ?_⟩
  have hprobe : probeValid ([0] ++ serializeHeader (createHeader [120] 0)) 1 =
      true := by
    unfold probeValid
    rw [hwinB _ (createHeader_wf [120] 0)]
    dsimp only
    rw [createHeader_magic, validateB_createHeader]
    simp [MAGIC_SIGNATURE]
  exact claim_C8_magic_needs_checksum.2 _ 1 1
    ((scanFrom_eq_some_iff _ 1 1).mpr
      ⟨le_rfl, le_rfl, hprobe, fun k hk1 hk2 => by omega⟩)

/-- `hideFilePure` on a validation success. -/
theorem hideFilePure_ok_of_validate (p1 p2 p3 hd host : List Nat) (c : Nat)
    (hval : validateAndCalculateMaxSize hd.length host.length = .ok c) :
    hideFilePure p1 p2 p3 hd host =
      .ok (generateOutputFilename p3 (extractFilename p2),
           host ++ serializeHeader (createHeader p1 hd.length) ++ hd) := by
  unfold hideFilePure
  rw [hval]
  rfl

/-- `hideFilePure` propagates a validation failure unchanged. -/
theorem hideFilePure_error_of_validate (p1 p2 p3 hd host : List Nat)
    (e : StegoError)
    (hval : validateAndCalculateMaxSize hd.length host.length = .error e) :
    hideFilePure p1 p2 p3 hd host = .error e := by
  unfold hideFilePure
  rw [hval]
  rfl

/-- C9 (amended): `generateOutputFilename` — used by embed with the
host's filename and by extract with the recovered header's filename —
returns `"extracted_" ++ original` for an empty user path, the user
path verbatim when it has an extension (a dot after any slash), and the
user path with the original's (lowercased) extension appended
otherwise; both pipelines name their output exactly this way. -/
theorem claim_C9_output_naming :
    (∀ user orig : List Nat,
      (user = [] → generateOutputFilename user orig = extractedLit ++ orig) ∧
      (user ≠ [] → hasExtensionB user = true →
        generateOutputFilename user orig = user) ∧
      (user ≠ [] → hasExtensionB user = false →
        generateOutputFilename user orig = user ++ getExtension orig)) ∧
    (∀ (p1 p2 p3 hd host : List Nat) (r : List Nat × List Nat),
      hideFilePure p1 p2 p3 hd host = .ok r →
      r.1 = generateOutputFilename p3 (extractFilename p2)) ∧
    (∀ (oP data : List Nat) (r : List Nat × List Nat × StegoHeader),
      extractFilePure oP data = .ok r →
      r.1 = generateOutputFilename oP (cString r.2.2.filename)) := by
  refine ⟨fun user orig => ⟨fun he => ?_, fun hne hext => ?_,
    fun hne hext => ?_⟩, ?_, ?_⟩
  · unfold generateOutputFilename
    rw [if_pos (by simp [he])]
  · unfold generateOutputFilename
    rw [if_neg (by simp [List.isEmpty_iff]; exact hne), if_pos hext]
  · unfold generateOutputFilename
    rw [if_neg (by simp [List.isEmpty_iff]; exact hne), if_neg (by simp [hext])]
  · intro p1 p2 p3 hd host r hr
    cases hval : validateAndCalculateMaxSize hd.length host.length with
    | error e =>
      rw [hideFilePure_error_of_validate _ _ _ _ _ _ hval] at hr
      cases hr
    | ok c =>
      rw [hideFilePure_ok_of_validate _ _ _ _ _ _ hval] at hr
      cases hr
      rfl
  · intro oP data r hr
    unfold extractFilePure at hr
    by_cases hlen : data.length < headerSize
    · rw [if_pos hlen] at hr
      cases hr
    rw [if_neg hlen] at hr
    rcases hscan : scanFrom data (data.length - headerSize) with - | i
    · rw [hscan] at hr
      cases hr
    rw [hscan] at hr
    dsimp only at hr
    rcases hdes : deserializeHeader (window data i) with e | h
    · rw [hdes] at hr
      dsimp only at hr
      cases hr
    rw [hdes] at hr
    dsimp only at hr
    by_cases hv : validateB h
    · rw [hv] at hr
      simp only [Bool.not_true, Bool.false_eq_true, if_false] at hr
      by_cases hsz : data.length < i + headerSize + h.hiddenFileSize
      · rw [if_pos hsz] at hr
        cases hr
      · rw [if_neg hsz] at hr
        cases hr
        rfl
    · rw [Bool.not_eq_true] at hv
      rw [hv] at hr
      simp only [Bool.not_false, if_true] at hr
      cases hr

/-- C9's witness: an empty output path yields `"extracted_h.png"` (not
the claim's "path with extension appended"); a non-empty extension-less
path `"out"` with original `"h.PNG"` yields `"out.png"` (the original's
extension, lowercased, appended); a path `"o.bin"` with an extension is
used verbatim; and both pipelines use this rule, shown on a concrete
embed and a concrete extract. -/
theorem claim_C9_output_naming_witness :
    generateOutputFilename [] [104, 46, 112, 110, 103] =
      extractedLit ++ [104, 46, 112, 110, 103] ∧
    generateOutputFilename [111, 117, 116] [104, 46, 80, 78, 71] =
      [111, 117, 116] ++ getExtension [104, 46, 80, 78, 71] ∧
    getExtension [104, 46, 80, 78, 71] = [46, 112, 110, 103] ∧
    generateOutputFilename [111, 46, 98, 105, 110] [104, 46, 112, 110, 103] =
      [111, 46, 98, 105, 110] ∧
    (∀ r : List Nat × List Nat,
      hideFilePure [97] [104, 46, 112, 110, 103] [] [] [] = .ok r →
      r.1 = generateOutputFilename [] (extractFilename [104, 46, 112, 110, 103])) ∧
    (∀ r : List Nat × List Nat × StegoHeader,
      extractFilePure [] [0] = .ok r →
      r.1 = generateOutputFilename [] (cString r.2.2.filename)) := by
  refine ⟨(claim_C9_output_naming.1 _ _).1 rfl,
    (claim_C9_output_naming.1 _ _).2.2 (by decide) (by decide),
    by decide,
    (claim_C9_output_naming.1 _ _).2.1 (by decide) (by decide),
    fun r hr => claim_C9_output_naming.2.1 _ _ _ _ _ r hr,
    fun r hr => claim_C9_output_naming.2.2 _ _ r hr⟩

/-- The "Host file too small to hide any data" branch of
`validateAndCalculateMaxSize` is dead code: once the 10240-byte
minimum-host check has passed, the truncated double product is at least
2175, far above the 276-byte header width. -/
theorem validate_ne_noCapacity (hiddenSize hostSize : Nat) :
    validateAndCalculateMaxSize hiddenSize hostSize ≠
      .error .sizeNoCapacity := by
  unfold validateAndCalculateMaxSize
  dsimp only
  split_ifs with h1 h2 h3
  · simp
  · have hge := le_castSizeTMul085 (show MIN_HOST_SIZE ≤ hostSize by omega)
    unfold headerSize at h2
    omega
  · simp
  · simp

/-- C10: for any host passing the minimum-size check the truncated
double product is at least the header width, so the
"Host file too small to hide any data" `FileSizeException` is
unreachable: neither `validateAndCalculateMaxSize` (for any arguments)
nor the public embed pipeline can ever produce it. -/
theorem claim_C10_no_capacity_unreachable :
    (∀ hostSize : Nat, MIN_HOST_SIZE ≤ hostSize →
      headerSize ≤ castSizeTMul085 hostSize) ∧
    (∀ hiddenSize hostSize : Nat,
      validateAndCalculateMaxSize hiddenSize hostSize ≠
        .error .sizeNoCapacity) ∧
    (∀ p1 p2 p3 hd host : List Nat,
      hideFilePure p1 p2 p3 hd host ≠ .error .sizeNoCapacity) := by
  refine ⟨fun hostSize hge => ?_, fun hs h => validate_ne_noCapacity hs h, ?_⟩
  · have := le_castSizeTMul085 hge
    unfold headerSize
    omega
  · intro p1 p2 p3 hd host hcon
    cases hval : validateAndCalculateMaxSize hd.length host.length with
    | error e =>
      rw [hideFilePure_error_of_validate _ _ _ _ _ _ hval] at hcon
      cases hcon
      exact validate_ne_noCapacity _ _ hval
    | ok c =>
      rw [hideFilePure_ok_of_validate _ _ _ _ _ _ hval] at hcon
      cases hcon

/-- C10's witness at a minimal host and at concrete pipeline inputs. -/
theorem claim_C10_no_capacity_unreachable_witness :
    headerSize ≤ castSizeTMul085 10240 ∧
    validateAndCalculateMaxSize 0 10239 ≠ .error .sizeNoCapacity ∧
    hideFilePure [] [] [] [] [] ≠ .error .sizeNoCapacity :=
  ⟨claim_C10_no_capacity_unreachable.1 10240 (by norm_num [MIN_HOST_SIZE]),
   claim_C10_no_capacity_unreachable.2.1 0 10239,
   claim_C10_no_capacity_unreachable.2.2 [] [] [] [] []⟩

/-- C1's witness: round trip of the empty payload (named "a") through a
minimal all-zero 10240-byte host. -/
theorem claim_C1_roundtrip_witness :
    hideFilePure [97] [104] [] [] (List.replicate 10240 0) =
      .ok (generateOutputFilename [] (extractFilename [104]),
        List.replicate 10240 0 ++ serializeHeader (createHeader [97] 0) ++ []) ∧
    extractFilePure []
        (List.replicate 10240 0 ++ serializeHeader (createHeader [97] 0) ++ []) =
      .ok (generateOutputFilename [] (cString (createHeader [97] 0).filename),
        [], createHeader [97] 0) ∧
    (createHeader [97] 0).filenameLength = 1 ∧
    (createHeader [97] 0).filename.take 1 = [97] := by
  have h := claim_C1_roundtrip [97] [104] [] [] [] (List.replicate 10240 0)
    (by rw [List.length_replicate]; norm_num [MIN_HOST_SIZE])
    (by rw [List.length_nil]; exact Nat.zero_le _)
    (by rw [List.length_nil]; norm_num)
    (by intro k h1 h2
        rw [List.length_replicate] at h1
        rw [List.length_replicate, List.length_nil] at h2
        omega)
  exact ⟨h.1, h.2.1, by decide, by decide⟩

/-- C9 as literally stated is false for embed: with an empty
caller-supplied output path (which has no file extension) and host
filename "h.png", the final path is not the path with the host's
extension appended (that would be ".png") but
`"extracted_" ++ "h.png"` — the empty-path defaulting rule applies to
both pipelines, not just extract. -/
theorem claim_C9_counterexample :
    generateOutputFilename [] [104, 46, 112, 110, 103] ≠
      [] ++ getExtension [104, 46, 112, 110, 103] ∧
    generateOutputFilename [] [104, 46, 112, 110, 103] =
      extractedLit ++ [104, 46, 112, 110, 103] := by
  decide

end Stego
